import Mathlib

/- Verification of the lowRISC Ethernet driver data path
   (src/sys/dev/lowrisc/ether/if_lre.c): a shallow embedding of the
   receive drain loop (lre_rx_thread), the transmit path (lre_transmit),
   interface start (lre_init) and MAC-address assembly (lre_attach),
   together with theorems checking the claims of the specification. -/

namespace Lre

/- Register-map constants.  The header dev/lowrisc/ether/lre_reg.h is not
   included in the sources; the constants below are modelled from the spec
   (register map: distinct fixed offsets; a receive-done bit disjoint from
   the slot-index field of the receive-status register; a 16-bit MAC-address
   field and an IRQ-enable bit in the MAC-high/control register; a masked
   per-slot length field).  No claim depends on the particular numeric
   values, only on the constants being distinct where the code
   distinguishes them. -/

/-- Modelled from the spec: offset of the MAC-low register (missing header lre_reg.h). -/
def MACLO_OFFSET : Nat := 0x800

/-- Modelled from the spec: offset of the MAC-high/control register (missing header lre_reg.h). -/
def MACHI_OFFSET : Nat := 0x808

/-- Modelled from the spec: offset of the transmit-length register (missing header lre_reg.h). -/
def TPLR_OFFSET : Nat := 0x810

/-- Modelled from the spec: offset of the receive-status register (missing header lre_reg.h). -/
def RSR_OFFSET : Nat := 0x820

/-- Modelled from the spec: offset of the receive-bad-flags register (missing header lre_reg.h). -/
def RBAD_OFFSET : Nat := 0x828

/-- Modelled from the spec: base offset of the per-slot receive-length registers (missing header lre_reg.h). -/
def RPLR_OFFSET : Nat := 0x830

/-- Modelled from the spec: base of the transmit-buffer window (missing header lre_reg.h). -/
def TXBUFF_OFFSET : Nat := 0x1000

/-- Modelled from the spec: base of the receive-buffer window, called RX_WINDOW_BASE in the spec (missing header lre_reg.h). -/
def RXBUFF_OFFSET : Nat := 0x4000

/-- Modelled from the spec: MAC-address field mask of the MAC-high register, the low 16 bits (missing header lre_reg.h). -/
def MACHI_MACADDR_MASK : Nat := 0xFFFF

/-- Modelled from the spec: receive-interrupt-enable bit in the MAC-high/control register (missing header lre_reg.h). -/
def MACHI_IRQ_EN : Nat := 0x800000

/-- Modelled from the spec: done bit of the receive-status register, disjoint from the slot field (missing header lre_reg.h). -/
def RSR_RECV_DONE_MASK : Nat := 0x10

/-- Modelled from the spec: slot-identifier field of the receive-status register, its low bits (missing header lre_reg.h). -/
def RSR_RECV_FIRST_MASK : Nat := 0xF

/-- Modelled from the spec: length-field mask of the per-slot receive-length registers (missing header lre_reg.h). -/
def RPLR_LENGTH_MASK : Nat := 0xFFF

/-- Modelled from the spec: the buffer-class allocation unit MCLBYTES of the
FreeBSD system headers (sys/param.h, not in the sources); standard value 2048. -/
def MCLBYTES : Nat := 2048

/-- Modelled from the spec: the frame-alignment pad ETHER_ALIGN of the FreeBSD
system headers (net/ethernet.h, not in the sources); standard value 2. -/
def ETHER_ALIGN : Nat := 2

/-- Modelled from the spec: the receive-checksum capability flag IFCAP_RXCSUM of
the FreeBSD system headers (net/if.h, not in the sources). -/
def IFCAP_RXCSUM : Nat := 1

/-- Truncation to an unsigned 32-bit value, the type of the local variables
length, buf, errs, status in lre_rx_thread (all uint32_t). -/
def u32 (n : Nat) : Nat := n % 4294967296

/-- The interface counters touched by the driver (if_inc_counter calls). -/
inductive Counter where
  | ierrors
  | iqdrops
  | ipackets
  | opackets
  | obytes
deriving DecidableEq

/-- A delivered receive frame (the mbuf handed to if_input): the leading
alignment offset applied to m_data, the 8-byte words copied from the
receive window, and the recorded packet-header length. -/
structure Frame where
  dataOff : Nat
  words : List Nat
  len : Nat
deriving DecidableEq

/-- Observable events of the driver, in program order: device register
writes (SETREG), the receive-status re-read at the end of a drain
iteration (GETREG of RSR), counter increments (if_inc_counter), a
receive-buffer allocation attempt (m_getcl) with its outcome, upward
delivery (if_input), and frame release (m_freem). -/
inductive Ev where
  | setReg : Nat → Nat → Ev
  | readReg : Nat → Nat → Ev
  | incCounter : Counter → Nat → Ev
  | allocBuf : Bool → Ev
  | deliver : Frame → Ev
  | freem : Ev
deriving DecidableEq

/-- Event is a device register write. -/
def Ev.isWrite : Ev → Bool
  | .setReg _ _ => true
  | _ => false

/-- Event is a write to the receive-status register. -/
def Ev.isRsrWrite : Ev → Bool
  | .setReg off _ => off == RSR_OFFSET
  | _ => false

/-- Event is a write to the MAC-high/control register (the only register
whose write in the receive path re-enables receive interrupts). -/
def Ev.isMachiWrite : Ev → Bool
  | .setReg off _ => off == MACHI_OFFSET
  | _ => false

/-- Event is a read of the receive-status register. -/
def Ev.isRsrRead : Ev → Bool
  | .readReg off _ => off == RSR_OFFSET
  | _ => false

/-- Event is an upward frame delivery. -/
def Ev.isDeliver : Ev → Bool
  | .deliver _ => true
  | _ => false

/-- Event is a receive-buffer allocation attempt. -/
def Ev.isAlloc : Ev → Bool
  | .allocBuf _ => true
  | _ => false

/-- Event is an increment of the given counter. -/
def Ev.isInc (c : Counter) : Ev → Bool
  | .incCounter c2 _ => decide (c2 = c)
  | _ => false

/-- The hardware responses observed during one iteration of the drain loop
of lre_rx_thread: the value read from the receive-bad-flags register, the
raw value read from the receive-length register of this slot, the contents of
the receive-buffer window (GETREG at a window offset), whether m_getcl
succeeds, and the value the receive-status register returns when re-read
after the ring advance. -/
structure IterEnv where
  rbad : Nat
  rplr : Nat
  window : Nat → Nat
  allocOk : Bool
  nextStatus : Nat

/-- Outcome of one drain-loop iteration: the frame was rejected by
validation and the loop continues at the re-read status; the receive
buffer allocation failed and lre_rx_thread returns; or the frame was
accepted and delivered and the loop continues at the re-read status. -/
inductive IterOut where
  | rejected : Nat → IterOut
  | allocFailed : IterOut
  | accepted : Frame → Nat → IterOut
deriving DecidableEq

/-- Outcome is an accepted (validated, allocated, delivered) frame. -/
def IterOut.isAccepted : IterOut → Bool
  | .accepted _ _ => true
  | _ => false

/-- The validated length of lre_rx_thread lines 496-497: the raw per-slot
length register masked with RPLR_LENGTH_MASK, then, when the
receive-checksum capability is set, 4 subtracted in uint32_t arithmetic
(the subtraction wraps modulo 2^32). -/
def lre_validated_length (cap : Bool) (rplrVal : Nat) : Nat :=
  let length := rplrVal &&& RPLR_LENGTH_MASK
  if cap then u32 (length + 4294967292) else length

/-- The validation test of lre_rx_thread line 501: reject when the length
exceeds MCLBYTES - ETHER_ALIGN or when the error bitmask has a bit of
0x101 shifted by the slot position set. -/
def lre_reject (length errs buf : Nat) : Bool :=
  decide (MCLBYTES - ETHER_ALIGN < length) ||
    decide ((0x101 <<< (buf &&& 7)) &&& errs ≠ 0)

/-- The frame built by the copy loop of lre_rx_thread (lines 517-532): the
mbuf data pointer advanced by ETHER_ALIGN, then round-up-to-8(length)
bytes copied 8 bytes at a time from the receive window of the slot at
RXBUFF_OFFSET + ((buf & 7) << 11), with the packet-header length set to
the validated length.  The round-up ((length-1)|7)+1 is uint32_t
arithmetic, wrapping to 0 when length is 0. -/
def lre_rx_frame (cap : Bool) (status : Nat) (env : IterEnv) : Frame :=
  let buf := status &&& RSR_RECV_FIRST_MASK
  let length := lre_validated_length cap env.rplr
  let start := RXBUFF_OFFSET + ((buf &&& 7) <<< 11)
  let rnd := u32 ((u32 (length + 4294967295) ||| 7) + 1)
  ⟨ETHER_ALIGN, (List.range (rnd / 8)).map (fun j => env.window (start + 8 * j)), length⟩

/-- One iteration of the drain loop of lre_rx_thread (lines 484-539),
entered with the current receive-status value: extract the slot
identifier buf, read errors and the masked length, validate; on
rejection count an input error, write buf+1 to receive-status and
re-read it; otherwise attempt allocation, and on failure count a drop
and return; otherwise copy round-up-to-8(length) bytes word-by-word from
the receive window of the slot, write buf+1 to receive-status, count an input
packet, deliver the frame, and re-read receive-status. -/
def lre_rx_iter (cap : Bool) (status : Nat) (env : IterEnv) : IterOut × List Ev :=
  let buf := status &&& RSR_RECV_FIRST_MASK
  let errs := env.rbad
  let length := lre_validated_length cap env.rplr
  if lre_reject length errs buf then
    (.rejected env.nextStatus,
      [.incCounter .ierrors 1, .setReg RSR_OFFSET (buf + 1),
       .readReg RSR_OFFSET env.nextStatus])
  else if env.allocOk = false then
    (.allocFailed, [.allocBuf false, .incCounter .iqdrops 1])
  else
    let fr := lre_rx_frame cap status env
    (.accepted fr env.nextStatus,
      [.allocBuf true, .setReg RSR_OFFSET (buf + 1), .incCounter .ipackets 1,
       .deliver fr, .readReg RSR_OFFSET env.nextStatus])

/-- The drain loop of lre_rx_thread: given the MAC-high/control register
value (read when re-enabling interrupts) and the initially read status,
iterate while the done bit is set, consuming one oracle entry per
iteration; falling out of the loop writes MACHI_IRQ_EN or-ed into the
control register (line 542); an allocation failure returns early without
that write (line 514).  Returns none when the oracle list is exhausted
while the done bit is still set (an unmodelled longer run). -/
def lre_rx_thread (cap : Bool) (machi : Nat) : Nat → List IterEnv → Option (List Ev)
  | status, [] =>
    if status &&& RSR_RECV_DONE_MASK = 0 then
      some [.setReg MACHI_OFFSET (MACHI_IRQ_EN ||| machi)]
    else
      none
  | status, env :: rest =>
    if status &&& RSR_RECV_DONE_MASK = 0 then
      some [.setReg MACHI_OFFSET (MACHI_IRQ_EN ||| machi)]
    else
      match lre_rx_iter cap status env with
      | (.rejected s2, tr) => (lre_rx_thread cap machi s2 rest).map (fun t => tr ++ t)
      | (.allocFailed, tr) => some tr
      | (.accepted _ s2, tr) => (lre_rx_thread cap machi s2 rest).map (fun t => tr ++ t)

/-- An outbound mbuf: its packet-header length and its data, as the 8-byte
words alloc[0], alloc[1], ... that lre_transmit reads. -/
structure TxMbuf where
  len : Nat
  data : Nat → Nat

/-- lre_transmit (lines 294-325): when the interface is not running, free
the mbuf and return 0; otherwise copy the frame into the transmit-buffer
window 8 bytes at a time for ((len-1)|7)+1 bytes (int arithmetic, as in
the source), write the exact length to the transmit-length register,
increment the outbound packet and byte counters, free the mbuf, return 0. -/
def lre_transmit (running : Bool) (m : TxMbuf) : Nat × List Ev :=
  if running = false then
    (0, [.freem])
  else
    let words : Int := Int.lor ((m.len : Int) - 1) 7 + 1
    (0,
      ((List.range (words.toNat / 8)).map
        (fun j => Ev.setReg (TXBUFF_OFFSET + 8 * j) (m.data j)))
      ++ [.setReg TPLR_OFFSET m.len, .incCounter .opackets 1,
          .incCounter .obytes m.len, .freem])

/-- The interface state mutated by lre_init: the driver running flag, the
MAC-high/control register contents, and the capability flags sc_cap. -/
structure IfState where
  drvRunning : Bool
  machi : Nat
  cap : Nat
deriving DecidableEq

/-- lre_init (lines 272-292), interrupt-mode build: clear the running flag
if set, set it, or MACHI_IRQ_EN into the control register, and set
sc_cap to IFCAP_RXCSUM. -/
def lre_init (s : IfState) : IfState :=
  let s1 := if s.drvRunning then { s with drvRunning := false } else s
  let s2 := { s1 with drvRunning := true }
  { s2 with machi := MACHI_IRQ_EN ||| s2.machi, cap := IFCAP_RXCSUM }

/-- Modelled from the spec: the 16-bit byte swap __bswap16 of the FreeBSD
system headers (sys/endian.h, not in the sources), in div-mod arithmetic. -/
def bswap16 (x : Nat) : Nat := (x % 256) * 256 + (x / 256) % 256

/-- Modelled from the spec: the 32-bit byte swap __bswap32 of the FreeBSD
system headers (sys/endian.h, not in the sources), in div-mod arithmetic. -/
def bswap32 (x : Nat) : Nat :=
  (x % 256) * 16777216 + ((x / 256) % 256) * 65536 +
    ((x / 65536) % 256) * 256 + (x / 16777216) % 256

/-- MAC-address assembly of lre_attach lines 196-199: byte-swap the 32-bit
truncation of the MAC-low register and the masked MAC-high register, then
lay them out by the two little-endian memcpy calls: the 16-bit value into
bytes 0-1 and the 32-bit value into bytes 2-5. -/
def lre_mac (maclo machi : Nat) : List Nat :=
  let lo := bswap32 (maclo % 4294967296)
  let hi := bswap16 (machi &&& MACHI_MACADDR_MASK)
  [hi % 256, (hi / 256) % 256,
   lo % 256, (lo / 256) % 256, (lo / 65536) % 256, (lo / 16777216) % 256]

/-- The numeric value of a byte list read in big-endian (wire) order. -/
def beBytesVal (bs : List Nat) : Nat := bs.foldl (fun a b => 256 * a + b) 0

/-- Or-ing 7 into a natural number sets its low three bits: the result is
the number rounded down to a multiple of 8, plus 7. -/
theorem or_seven (n : Nat) : n ||| 7 = 8 * (n / 8) + 7 := by
  apply Nat.eq_of_testBit_eq
  intro i
  match i with
  | 0 =>
    rw [Nat.testBit_or]
    have h7 : Nat.testBit 7 0 = true := by decide
    rw [h7, Bool.or_true]
    symm
    rw [Nat.testBit_to_div_mod]
    apply decide_eq_true
    norm_num
    omega
  | 1 =>
    rw [Nat.testBit_or]
    have h7 : Nat.testBit 7 1 = true := by decide
    rw [h7, Bool.or_true]
    symm
    rw [Nat.testBit_to_div_mod]
    apply decide_eq_true
    norm_num
    omega
  | 2 =>
    rw [Nat.testBit_or]
    have h7 : Nat.testBit 7 2 = true := by decide
    rw [h7, Bool.or_true]
    symm
    rw [Nat.testBit_to_div_mod]
    apply decide_eq_true
    norm_num
    omega
  | i + 3 =>
    rw [Nat.testBit_or, Nat.testBit_to_div_mod, Nat.testBit_to_div_mod,
        Nat.testBit_to_div_mod]
    have hp : (2 : Nat) ^ (i + 3) = 8 * 2 ^ i := by rw [pow_add]; ring
    have h1 : 1 ≤ (2 : Nat) ^ i := Nat.one_le_two_pow
    have h7 : 7 / (2 : Nat) ^ (i + 3) = 0 := by
      apply Nat.div_eq_of_lt
      omega
    have hmain : n / (2 : Nat) ^ (i + 3) = (8 * (n / 8) + 7) / 2 ^ (i + 3) := by
      rw [hp, ← Nat.div_div_eq_div_mul, ← Nat.div_div_eq_div_mul]
      congr 1
      omega
    rw [h7, hmain]
    simp

/-- For a positive length, the round-up-to-8 expression used by the driver
equals eight times the ceiling of the length over 8. -/
theorem round_up_eight (L : Nat) (h : 1 ≤ L) :
    ((L - 1) ||| 7) + 1 = 8 * ((L + 7) / 8) := by
  rw [or_seven]
  omega

/-- The int round-up computed by lre_transmit, carried over to Nat for a
positive length, divided by the 8-byte word size. -/
theorem tx_words_toNat (L : Nat) (h : 1 ≤ L) :
    (Int.lor ((L : Int) - 1) 7 + 1).toNat / 8 = (L + 7) / 8 := by
  obtain ⟨k, rfl⟩ : ∃ k : Nat, L = k + 1 := ⟨L - 1, by omega⟩
  have hc : ((k + 1 : Nat) : Int) - 1 = (k : Int) := by push_cast; ring
  rw [hc]
  have hl : Int.lor (k : Int) 7 = ((k ||| 7 : Nat) : Int) := rfl
  rw [hl]
  have ht : (((k ||| 7 : Nat) : Int) + 1).toNat = (k ||| 7) + 1 := by omega
  rw [ht, or_seven]
  omega

/-- Claim C5: lre_transmit called while the interface is not running writes
no device register (transmit buffer and transmit length included), frees
the mbuf, returns 0 (the silent-drop success result), and increments
neither outbound counter. -/
theorem c5_transmit_drop_on_stopped (m : TxMbuf) :
    lre_transmit false m = (0, [Ev.freem]) ∧
    (lre_transmit false m).2.countP Ev.isWrite = 0 ∧
    (lre_transmit false m).2.countP (Ev.isInc .opackets) = 0 ∧
    (lre_transmit false m).2.countP (Ev.isInc .obytes) = 0 :=
  ⟨rfl, rfl, rfl, rfl⟩

/-- Claim C6: lre_transmit on a running interface with a frame of length
L >= 1 writes exactly ceil(L/8) 8-byte words of frame data at consecutive
transmit-buffer offsets, then writes the exact length L to the
transmit-length register, increments the outbound packet counter by 1 and
the outbound byte counter by L, and frees the mbuf; the copied byte count
((L-1)|7)+1 is L rounded up to the next multiple of 8. -/
theorem c6_transmit_running (m : TxMbuf) (h : 1 ≤ m.len) :
    lre_transmit true m =
      (0, ((List.range ((m.len + 7) / 8)).map
            (fun j => Ev.setReg (TXBUFF_OFFSET + 8 * j) (m.data j)))
          ++ [Ev.setReg TPLR_OFFSET m.len, Ev.incCounter .opackets 1,
              Ev.incCounter .obytes m.len, Ev.freem]) ∧
    ((m.len - 1) ||| 7) + 1 = 8 * ((m.len + 7) / 8) := by
  constructor
  · have key := tx_words_toNat m.len h
    unfold lre_transmit
    simp [key]
  · exact round_up_eight m.len h

/-- A concrete outbound mbuf exercising c6_transmit_running. -/
def txm0 : TxMbuf := ⟨9, fun j => j + 100⟩

/-- Witness for claim C6 at a concrete 9-byte frame. -/
theorem c6_transmit_running_witness :
    1 ≤ txm0.len ∧
    (lre_transmit true txm0 =
      (0, ((List.range ((txm0.len + 7) / 8)).map
            (fun j => Ev.setReg (TXBUFF_OFFSET + 8 * j) (txm0.data j)))
          ++ [Ev.setReg TPLR_OFFSET txm0.len, Ev.incCounter .opackets 1,
              Ev.incCounter .obytes txm0.len, Ev.freem]) ∧
     ((txm0.len - 1) ||| 7) + 1 = 8 * ((txm0.len + 7) / 8)) :=
  ⟨by decide, c6_transmit_running txm0 (by decide)⟩

/-- Claim C9: lre_init is idempotent: running it twice yields the same
interface state, control-register contents and capability flags as running
it once; each run leaves the running flag set, the receive-interrupt
enable bit (bit 23, MACHI_IRQ_EN) set in the control register, and the
receive-checksum capability flag established in sc_cap. -/
theorem c9_init_idempotent (s : IfState) :
    lre_init (lre_init s) = lre_init s ∧
    (lre_init s).drvRunning = true ∧
    ((lre_init s).machi &&& MACHI_IRQ_EN = MACHI_IRQ_EN) ∧
    (lre_init s).cap = IFCAP_RXCSUM := by
  have hbit : ∀ x : Nat, (MACHI_IRQ_EN ||| x) &&& MACHI_IRQ_EN = MACHI_IRQ_EN := by
    intro x
    apply Nat.eq_of_testBit_eq
    intro i
    rw [Nat.testBit_and, Nat.testBit_or]
    by_cases h23 : i = 23
    · subst h23
      have : Nat.testBit MACHI_IRQ_EN 23 = true := by decide
      rw [this]
      simp
    · have : Nat.testBit MACHI_IRQ_EN i = false := by
        have h2 : MACHI_IRQ_EN = 2 ^ 23 := by decide
        rw [h2]
        exact Nat.testBit_two_pow_of_ne (fun he => h23 he.symm)
      rw [this]
      simp
  refine ⟨?_, ?_, ?_, ?_⟩
  · by_cases h : s.drvRunning <;>
      simp [lre_init, h, ← Nat.or_assoc, Nat.or_self]
  · by_cases h : s.drvRunning <;> simp [lre_init, h]
  · by_cases h : s.drvRunning <;> simp [lre_init, h, hbit]
  · by_cases h : s.drvRunning <;> simp [lre_init, h]

/-- Low byte of a two-byte value. -/
theorem two_byte_lo (x y : Nat) (hy : y < 256) : (x * 256 + y) % 256 = y := by omega

/-- High byte of a two-byte value. -/
theorem two_byte_hi (x y : Nat) (hx : x < 256) (hy : y < 256) :
    (x * 256 + y) / 256 % 256 = x := by omega

/-- Byte 0 (lowest) of a four-byte value. -/
theorem four_byte0 (a b c d : Nat) (hd : d < 256) :
    (a * 16777216 + b * 65536 + c * 256 + d) % 256 = d := by omega

/-- Byte 1 of a four-byte value. -/
theorem four_byte1 (a b c d : Nat) (hc : c < 256) (hd : d < 256) :
    (a * 16777216 + b * 65536 + c * 256 + d) / 256 % 256 = c := by omega

/-- Byte 2 of a four-byte value. -/
theorem four_byte2 (a b c d : Nat) (hb : b < 256) (hc : c < 256) (hd : d < 256) :
    (a * 16777216 + b * 65536 + c * 256 + d) / 65536 % 256 = b := by omega

/-- Byte 3 (highest) of a four-byte value. -/
theorem four_byte3 (a b c d : Nat) (ha : a < 256) (hb : b < 256) (hc : c < 256)
    (hd : d < 256) :
    (a * 16777216 + b * 65536 + c * 256 + d) / 16777216 % 256 = a := by omega

/-- Byte 0 of a value split above the low 32 bits. -/
theorem five_byte0 (z a b c d : Nat) (hc : c < 256) (hd : d < 256) :
    (z * 4294967296 + a * 16777216 + b * 65536 + c * 256 + d) % 256 = d := by omega

/-- Byte 1 of a value split above the low 32 bits. -/
theorem five_byte1 (z a b c d : Nat) (hc : c < 256) (hd : d < 256) :
    (z * 4294967296 + a * 16777216 + b * 65536 + c * 256 + d) / 256 % 256 = c := by
  omega

/-- Byte 2 of a value split above the low 32 bits. -/
theorem five_byte2 (z a b c d : Nat) (hb : b < 256) (hc : c < 256) (hd : d < 256) :
    (z * 4294967296 + a * 16777216 + b * 65536 + c * 256 + d) / 65536 % 256 = b := by
  omega

/-- Byte 3 of a value split above the low 32 bits. -/
theorem five_byte3 (z a b c d : Nat) (ha : a < 256) (hb : b < 256) (hc : c < 256)
    (hd : d < 256) :
    (z * 4294967296 + a * 16777216 + b * 65536 + c * 256 + d) / 16777216 % 256
      = a := by omega

/-- The low 32 bits of a value split above the low 32 bits. -/
theorem five_byte4 (z a b c d : Nat) (ha : a < 256) (hb : b < 256) (hc : c < 256)
    (hd : d < 256) :
    (z * 4294967296 + a * 16777216 + b * 65536 + c * 256 + d) % 4294967296
      = a * 16777216 + b * 65536 + c * 256 + d := by omega

/-- Byte decomposition of the modelled 16-bit byte swap. -/
theorem bswap16_bytes (q r : Nat) (hq : q < 256) (hr : r < 256) :
    bswap16 (q * 256 + r) = r * 256 + q := by
  unfold bswap16
  have e1 : (q * 256 + r) % 256 = r := by omega
  have e2 : (q * 256 + r) / 256 = q := by omega
  omega

/-- Byte decomposition of the modelled 32-bit byte swap. -/
theorem bswap32_bytes (c3 c2 c1 c0 : Nat) (h3 : c3 < 256) (h2 : c2 < 256)
    (h1 : c1 < 256) (h0 : c0 < 256) :
    bswap32 (c3 * 16777216 + c2 * 65536 + c1 * 256 + c0)
      = c0 * 16777216 + c1 * 65536 + c2 * 256 + c3 := by
  unfold bswap32
  have e0 : (c3 * 16777216 + c2 * 65536 + c1 * 256 + c0) % 256 = c0 := by omega
  have e1 : (c3 * 16777216 + c2 * 65536 + c1 * 256 + c0) / 256 % 256 = c1 := by omega
  have e2 : (c3 * 16777216 + c2 * 65536 + c1 * 256 + c0) / 65536 % 256 = c2 := by
    omega
  have e3 : (c3 * 16777216 + c2 * 65536 + c1 * 256 + c0) / 16777216 = c3 := by omega
  omega

/-- Claim C8: the 6-byte MAC address assembled by lre_attach is, in order,
the big-endian byte decomposition of the masked 16-bit MAC-high field
followed by the big-endian byte decomposition of the 32-bit MAC-low
value: read as one big-endian (wire-order) number the address equals the
high 16 bits placed above the low 32 bits. -/
theorem c8_mac_assembly (maclo machi : Nat) :
    lre_mac maclo machi =
      [((machi &&& MACHI_MACADDR_MASK) / 256) % 256,
       (machi &&& MACHI_MACADDR_MASK) % 256,
       (maclo / 16777216) % 256, (maclo / 65536) % 256,
       (maclo / 256) % 256, maclo % 256] ∧
    beBytesVal (lre_mac maclo machi) =
      (machi &&& MACHI_MACADDR_MASK) * 4294967296 + maclo % 4294967296 := by
  obtain ⟨q, r, hq, hr, hqr⟩ : ∃ q r, q < 256 ∧ r < 256 ∧
      machi &&& MACHI_MACADDR_MASK = q * 256 + r := by
    have hh : machi &&& MACHI_MACADDR_MASK ≤ 65535 := by
      have h2 : machi &&& MACHI_MACADDR_MASK ≤ MACHI_MACADDR_MASK := Nat.and_le_right
      simpa [MACHI_MACADDR_MASK] using h2
    exact ⟨(machi &&& MACHI_MACADDR_MASK) / 256,
           (machi &&& MACHI_MACADDR_MASK) % 256, by omega, by omega, by omega⟩
  obtain ⟨z, c3, c2, c1, c0, hc3, hc2, hc1, hc0, hz⟩ : ∃ z c3 c2 c1 c0,
      c3 < 256 ∧ c2 < 256 ∧ c1 < 256 ∧ c0 < 256 ∧
      maclo = z * 4294967296 + c3 * 16777216 + c2 * 65536 + c1 * 256 + c0 :=
    ⟨maclo / 4294967296, maclo / 16777216 % 256, maclo / 65536 % 256,
     maclo / 256 % 256, maclo % 256, by omega, by omega, by omega, by omega, by omega⟩
  have h16 : bswap16 (machi &&& MACHI_MACADDR_MASK) = r * 256 + q := by
    rw [hqr]
    exact bswap16_bytes q r hq hr
  have h32 : bswap32 (maclo % 4294967296)
      = c0 * 16777216 + c1 * 65536 + c2 * 256 + c3 := by
    have hm : maclo % 4294967296 = c3 * 16777216 + c2 * 65536 + c1 * 256 + c0 := by
      omega
    rw [hm]
    exact bswap32_bytes c3 c2 c1 c0 hc3 hc2 hc1 hc0
  have hlist : lre_mac maclo machi =
      [((machi &&& MACHI_MACADDR_MASK) / 256) % 256,
       (machi &&& MACHI_MACADDR_MASK) % 256,
       (maclo / 16777216) % 256, (maclo / 65536) % 256,
       (maclo / 256) % 256, maclo % 256] := by
    unfold lre_mac
    rw [h16, h32, hqr, hz]
    dsimp only
    rw [two_byte_lo r q hq, two_byte_hi r q hr hq, two_byte_lo q r hr,
        two_byte_hi q r hq hr,
        four_byte0 c0 c1 c2 c3 hc3, four_byte1 c0 c1 c2 c3 hc2 hc3,
        four_byte2 c0 c1 c2 c3 hc1 hc2 hc3, four_byte3 c0 c1 c2 c3 hc0 hc1 hc2 hc3,
        five_byte0 z c3 c2 c1 c0 hc1 hc0, five_byte1 z c3 c2 c1 c0 hc1 hc0,
        five_byte2 z c3 c2 c1 c0 hc2 hc1 hc0, five_byte3 z c3 c2 c1 c0 hc3 hc2 hc1 hc0]
  refine ⟨hlist, ?_⟩
  rw [hlist]
  unfold beBytesVal
  simp only [List.foldl]
  rw [hqr, hz]
  rw [two_byte_hi q r hq hr, two_byte_lo q r hr,
      five_byte0 z c3 c2 c1 c0 hc1 hc0, five_byte1 z c3 c2 c1 c0 hc1 hc0,
      five_byte2 z c3 c2 c1 c0 hc2 hc1 hc0, five_byte3 z c3 c2 c1 c0 hc3 hc2 hc1 hc0,
      five_byte4 z c3 c2 c1 c0 hc3 hc2 hc1 hc0]
  omega

/-- Claim C1 (counterexample): at slot 1 with error register value 1 and
validated length 64 the drain iteration accepts the frame, yet the
error formula of the claim, (0x101 OR (0x101 << 1)) AND 1, is nonzero, so the
claimed acceptance condition demands rejection: the claimed equivalence
fails at this input. -/
theorem c1_validation_counterexample :
    (lre_rx_iter false 0x11 ⟨1, 64, fun _ => 0, true, 0⟩).1.isAccepted = true ∧
    ¬ ((0x101 ||| (0x101 <<< ((0x11 &&& RSR_RECV_FIRST_MASK) &&& 7))) &&& 1 = 0) := by
  constructor
  · rfl
  · decide

/-- Claim C1 (amended): with allocation succeeding, a drain iteration
accepts the frame of the slot iff the validated length is at most
MCLBYTES - ETHER_ALIGN and the error register has none of the bits
0x101 << slot set; the code tests 0x101 shifted by the slot position,
not 0x101 OR-ed with that shift. -/
theorem c1_validation_amended (cap : Bool) (status : Nat) (env : IterEnv)
    (h : env.allocOk = true) :
    (lre_rx_iter cap status env).1.isAccepted = true ↔
      (lre_validated_length cap env.rplr ≤ MCLBYTES - ETHER_ALIGN ∧
       (0x101 <<< ((status &&& RSR_RECV_FIRST_MASK) &&& 7)) &&& env.rbad = 0) := by
  by_cases hrj : lre_reject (lre_validated_length cap env.rplr) env.rbad
      (status &&& RSR_RECV_FIRST_MASK) = true
  · have hit : (lre_rx_iter cap status env).1.isAccepted = false := by
      simp [lre_rx_iter, hrj, IterOut.isAccepted]
    rw [hit]
    unfold lre_reject at hrj
    simp only [Bool.or_eq_true, decide_eq_true_eq] at hrj
    constructor
    · intro hfa
      exact absurd hfa (by simp)
    · rintro ⟨hL, hM⟩
      rcases hrj with h1 | h1
      · omega
      · exact absurd hM h1
  · have hrj2 : lre_reject (lre_validated_length cap env.rplr) env.rbad
        (status &&& RSR_RECV_FIRST_MASK) = false := by
      revert hrj
      cases lre_reject (lre_validated_length cap env.rplr) env.rbad
          (status &&& RSR_RECV_FIRST_MASK) <;> simp
    have hit : (lre_rx_iter cap status env).1.isAccepted = true := by
      simp [lre_rx_iter, hrj2, h, IterOut.isAccepted]
    rw [hit]
    unfold lre_reject at hrj2
    simp only [Bool.or_eq_false_iff, decide_eq_false_iff_not] at hrj2
    obtain ⟨h1, h2⟩ := hrj2
    simp only [true_iff]
    refine ⟨by omega, by simpa using h2⟩

/-- A concrete iteration environment exercising c1_validation_amended. -/
def envC1 : IterEnv := ⟨0, 64, fun _ => 0, true, 0⟩

/-- Witness for claim C1 (amended) at slot 0, length 64, no errors. -/
theorem c1_validation_amended_witness :
    envC1.allocOk = true ∧
    ((lre_rx_iter false 0x10 envC1).1.isAccepted = true ↔
      (lre_validated_length false envC1.rplr ≤ MCLBYTES - ETHER_ALIGN ∧
       (0x101 <<< ((0x10 &&& RSR_RECV_FIRST_MASK) &&& 7)) &&& envC1.rbad = 0)) :=
  ⟨rfl, c1_validation_amended false 0x10 envC1 rfl⟩

/-- Claim C2: a drain iteration whose frame fails validation increments the
input-error counter by one, writes the masked slot field plus one (not
the raw status value) to the receive-status register, re-reads the
status register, and the drain continues with the re-read status; the
iteration performs no allocation attempt and no delivery. -/
theorem c2_reject_path (cap : Bool) (machi status : Nat) (env : IterEnv)
    (rest : List IterEnv)
    (hd : status &&& RSR_RECV_DONE_MASK ≠ 0)
    (hr : lre_reject (lre_validated_length cap env.rplr) env.rbad
        (status &&& RSR_RECV_FIRST_MASK) = true) :
    lre_rx_iter cap status env =
      (.rejected env.nextStatus,
        [Ev.incCounter .ierrors 1,
         Ev.setReg RSR_OFFSET ((status &&& RSR_RECV_FIRST_MASK) + 1),
         Ev.readReg RSR_OFFSET env.nextStatus]) ∧
    (status &&& RSR_RECV_FIRST_MASK) + 1 ≠ status ∧
    (lre_rx_iter cap status env).2.countP Ev.isAlloc = 0 ∧
    (lre_rx_iter cap status env).2.countP Ev.isDeliver = 0 ∧
    lre_rx_thread cap machi status (env :: rest) =
      (lre_rx_thread cap machi env.nextStatus rest).map
        (fun t => (lre_rx_iter cap status env).2 ++ t) := by
  have hiter : lre_rx_iter cap status env =
      (.rejected env.nextStatus,
        [Ev.incCounter .ierrors 1,
         Ev.setReg RSR_OFFSET ((status &&& RSR_RECV_FIRST_MASK) + 1),
         Ev.readReg RSR_OFFSET env.nextStatus]) := by
    simp [lre_rx_iter, hr]
  have hneq : (status &&& RSR_RECV_FIRST_MASK) + 1 ≠ status := by
    intro heq
    have h15 : status &&& RSR_RECV_FIRST_MASK ≤ 15 := by
      have h2 : status &&& 15 ≤ 15 := Nat.and_le_right
      simpa [RSR_RECV_FIRST_MASK] using h2
    have h16 : 16 ≤ status := by
      have h1 : status &&& 16 ≠ 0 := by
        simpa [RSR_RECV_DONE_MASK] using hd
      have h2 : status &&& 16 = (status.testBit 4).toNat * 16 := by
        have h3 := Nat.and_two_pow status 4
        norm_num at h3
        exact h3
      cases hb : status.testBit 4 with
      | false =>
        rw [hb] at h2
        simp at h2
        exact absurd h2 h1
      | true =>
        have h4 := Nat.testBit_implies_ge hb
        norm_num at h4
        exact h4
    have hs : status = 16 := by omega
    rw [hs] at heq
    exact absurd heq (by decide)
  refine ⟨hiter, hneq, ?_, ?_, ?_⟩
  · rw [hiter]
    rfl
  · rw [hiter]
    rfl
  · simp [lre_rx_thread, hd, hiter]

/-- A concrete iteration environment exercising c2_reject_path: the error
register has bit 9 set, matching slot 1 in the error test of the code. -/
def envC2 : IterEnv := ⟨0x200, 64, fun _ => 0, true, 0⟩

/-- Witness for claim C2 at slot 1 with a matching error bit. -/
theorem c2_reject_path_witness :
    (0x11 &&& RSR_RECV_DONE_MASK ≠ 0) ∧
    (lre_reject (lre_validated_length false envC2.rplr) envC2.rbad
        (0x11 &&& RSR_RECV_FIRST_MASK) = true) ∧
    (lre_rx_iter false 0x11 envC2 =
      (.rejected envC2.nextStatus,
        [Ev.incCounter .ierrors 1,
         Ev.setReg RSR_OFFSET ((0x11 &&& RSR_RECV_FIRST_MASK) + 1),
         Ev.readReg RSR_OFFSET envC2.nextStatus]) ∧
     (0x11 &&& RSR_RECV_FIRST_MASK) + 1 ≠ 0x11 ∧
     (lre_rx_iter false 0x11 envC2).2.countP Ev.isAlloc = 0 ∧
     (lre_rx_iter false 0x11 envC2).2.countP Ev.isDeliver = 0 ∧
     lre_rx_thread false 0 0x11 (envC2 :: []) =
       (lre_rx_thread false 0 envC2.nextStatus []).map
         (fun t => (lre_rx_iter false 0x11 envC2).2 ++ t)) :=
  ⟨by decide, by decide, c2_reject_path false 0 0x11 envC2 [] (by decide) (by decide)⟩

/-- Claim C3: when buffer allocation for a validated frame fails, the drain
increments the drop counter by one and stops at once: the whole drain
trace is the failed allocation attempt and the drop count, with no
register write at all (receive-status is not advanced and the
interrupt-enable bit is not restored) and no delivery. -/
theorem c3_alloc_fail_aborts (cap : Bool) (machi status : Nat) (env : IterEnv)
    (rest : List IterEnv)
    (hd : status &&& RSR_RECV_DONE_MASK ≠ 0)
    (hr : lre_reject (lre_validated_length cap env.rplr) env.rbad
        (status &&& RSR_RECV_FIRST_MASK) = false)
    (ha : env.allocOk = false) :
    lre_rx_thread cap machi status (env :: rest)
      = some [Ev.allocBuf false, Ev.incCounter .iqdrops 1] ∧
    ∀ t, lre_rx_thread cap machi status (env :: rest) = some t →
      t.countP Ev.isWrite = 0 ∧ t.countP Ev.isDeliver = 0 ∧
      t.countP Ev.isAlloc = 1 ∧ t.countP (Ev.isInc .iqdrops) = 1 := by
  have hiter : lre_rx_iter cap status env =
      (.allocFailed, [Ev.allocBuf false, Ev.incCounter .iqdrops 1]) := by
    simp [lre_rx_iter, hr, ha]
  have hmain : lre_rx_thread cap machi status (env :: rest)
      = some [Ev.allocBuf false, Ev.incCounter .iqdrops 1] := by
    simp [lre_rx_thread, hd, hiter]
  refine ⟨hmain, ?_⟩
  intro t ht
  rw [hmain] at ht
  injection ht with ht2
  rw [← ht2]
  refine ⟨rfl, rfl, rfl, rfl⟩

/-- A concrete iteration environment exercising c3_alloc_fail_aborts. -/
def envC3 : IterEnv := ⟨0, 64, fun _ => 0, false, 0⟩

/-- Witness for claim C3 at slot 1 with allocation failing. -/
theorem c3_alloc_fail_aborts_witness :
    (0x11 &&& RSR_RECV_DONE_MASK ≠ 0) ∧
    (lre_reject (lre_validated_length false envC3.rplr) envC3.rbad
        (0x11 &&& RSR_RECV_FIRST_MASK) = false) ∧
    envC3.allocOk = false ∧
    (lre_rx_thread false 0 0x11 (envC3 :: [])
        = some [Ev.allocBuf false, Ev.incCounter .iqdrops 1] ∧
     ∀ t, lre_rx_thread false 0 0x11 (envC3 :: []) = some t →
       t.countP Ev.isWrite = 0 ∧ t.countP Ev.isDeliver = 0 ∧
       t.countP Ev.isAlloc = 1 ∧ t.countP (Ev.isInc .iqdrops) = 1) :=
  ⟨by decide, by decide, rfl,
   c3_alloc_fail_aborts false 0 0x11 envC3 [] (by decide) (by decide) rfl⟩

/-- Claim C4: in an accepted drain iteration there is exactly one
receive-status (ring-advance) write and exactly one upward delivery in
the event trace, and before the ring-advance write there is neither a
delivery nor a receive-status read: the advance happens before the frame
is handed upward and before the next status read. -/
theorem c4_advance_before_delivery (cap : Bool) (status : Nat) (env : IterEnv)
    (hr : lre_reject (lre_validated_length cap env.rplr) env.rbad
        (status &&& RSR_RECV_FIRST_MASK) = false)
    (ha : env.allocOk = true) :
    (lre_rx_iter cap status env).2.countP Ev.isRsrWrite = 1 ∧
    (lre_rx_iter cap status env).2.countP Ev.isDeliver = 1 ∧
    ((lre_rx_iter cap status env).2.takeWhile
        (fun e => ! e.isRsrWrite)).countP Ev.isDeliver = 0 ∧
    ((lre_rx_iter cap status env).2.takeWhile
        (fun e => ! e.isRsrWrite)).countP Ev.isRsrRead = 0 := by
  have hiter : lre_rx_iter cap status env =
      (.accepted (lre_rx_frame cap status env) env.nextStatus,
        [Ev.allocBuf true,
         Ev.setReg RSR_OFFSET ((status &&& RSR_RECV_FIRST_MASK) + 1),
         Ev.incCounter .ipackets 1, Ev.deliver (lre_rx_frame cap status env),
         Ev.readReg RSR_OFFSET env.nextStatus]) := by
    simp [lre_rx_iter, hr, ha]
  rw [hiter]
  refine ⟨rfl, rfl, rfl, rfl⟩

/-- A concrete iteration environment exercising c4_advance_before_delivery. -/
def envC4 : IterEnv := ⟨0, 64, fun _ => 0, true, 5⟩

/-- Witness for claim C4 at slot 1, length 64, no errors. -/
theorem c4_advance_before_delivery_witness :
    (lre_reject (lre_validated_length false envC4.rplr) envC4.rbad
        (0x11 &&& RSR_RECV_FIRST_MASK) = false) ∧
    envC4.allocOk = true ∧
    ((lre_rx_iter false 0x11 envC4).2.countP Ev.isRsrWrite = 1 ∧
     (lre_rx_iter false 0x11 envC4).2.countP Ev.isDeliver = 1 ∧
     ((lre_rx_iter false 0x11 envC4).2.takeWhile
         (fun e => ! e.isRsrWrite)).countP Ev.isDeliver = 0 ∧
     ((lre_rx_iter false 0x11 envC4).2.takeWhile
         (fun e => ! e.isRsrWrite)).countP Ev.isRsrRead = 0) :=
  ⟨by decide, rfl, c4_advance_before_delivery false 0x11 envC4 (by decide) rfl⟩

/-- Claim C7: an accepted frame of validated length L >= 1 at slot s is
built by copying ((L-1)|7)+1 bytes (L rounded up to a multiple of 8),
8 bytes at a time, from the receive window starting at
RXBUFF_OFFSET + (s & 7) * 2048, into the buffer at the fixed
ETHER_ALIGN data offset, and the recorded length of the delivered frame is
exactly L. -/
theorem c7_accepted_copy (cap : Bool) (status : Nat) (env : IterEnv)
    (hr : lre_reject (lre_validated_length cap env.rplr) env.rbad
        (status &&& RSR_RECV_FIRST_MASK) = false)
    (ha : env.allocOk = true)
    (hL : 1 ≤ lre_validated_length cap env.rplr) :
    (lre_rx_iter cap status env).1 =
      IterOut.accepted
        ⟨ETHER_ALIGN,
         (List.range ((((lre_validated_length cap env.rplr - 1) ||| 7) + 1) / 8)).map
           (fun j => env.window
             (RXBUFF_OFFSET + ((status &&& RSR_RECV_FIRST_MASK) &&& 7) * 2048 + 8 * j)),
         lre_validated_length cap env.rplr⟩
        env.nextStatus := by
  have hle : lre_validated_length cap env.rplr ≤ 2046 := by
    unfold lre_reject MCLBYTES ETHER_ALIGN at hr
    simp only [Bool.or_eq_false_iff, decide_eq_false_iff_not] at hr
    omega
  have hfr : lre_rx_frame cap status env =
      ⟨ETHER_ALIGN,
       (List.range ((((lre_validated_length cap env.rplr - 1) ||| 7) + 1) / 8)).map
         (fun j => env.window
           (RXBUFF_OFFSET + ((status &&& RSR_RECV_FIRST_MASK) &&& 7) * 2048 + 8 * j)),
       lre_validated_length cap env.rplr⟩ := by
    unfold lre_rx_frame
    dsimp only
    have h1 : u32 (lre_validated_length cap env.rplr + 4294967295)
        = lre_validated_length cap env.rplr - 1 := by
      unfold u32
      omega
    rw [h1]
    have h2 : u32 (((lre_validated_length cap env.rplr - 1) ||| 7) + 1)
        = ((lre_validated_length cap env.rplr - 1) ||| 7) + 1 := by
      unfold u32
      have h3 := or_seven (lre_validated_length cap env.rplr - 1)
      omega
    rw [h2]
    have h4 : ((status &&& RSR_RECV_FIRST_MASK) &&& 7) <<< 11
        = ((status &&& RSR_RECV_FIRST_MASK) &&& 7) * 2048 := by
      rw [Nat.shiftLeft_eq]
    rw [h4]
  have hiter : (lre_rx_iter cap status env).1
      = IterOut.accepted (lre_rx_frame cap status env) env.nextStatus := by
    simp [lre_rx_iter, hr, ha]
  rw [hiter, hfr]

/-- A concrete iteration environment exercising c7_accepted_copy: the
window content at offset o is o itself, so the copied words record the
addresses they were read from. -/
def envC7 : IterEnv := ⟨0, 64, fun off => off, true, 0⟩

/-- Witness for claim C7 at slot 3, length 64, no errors. -/
theorem c7_accepted_copy_witness :
    (lre_reject (lre_validated_length false envC7.rplr) envC7.rbad
        (0x13 &&& RSR_RECV_FIRST_MASK) = false) ∧
    envC7.allocOk = true ∧
    1 ≤ lre_validated_length false envC7.rplr ∧
    (lre_rx_iter false 0x13 envC7).1 =
      IterOut.accepted
        ⟨ETHER_ALIGN,
         (List.range ((((lre_validated_length false envC7.rplr - 1) ||| 7) + 1) / 8)).map
           (fun j => envC7.window
             (RXBUFF_OFFSET + ((0x13 &&& RSR_RECV_FIRST_MASK) &&& 7) * 2048 + 8 * j)),
         lre_validated_length false envC7.rplr⟩
        envC7.nextStatus :=
  ⟨by decide, rfl, by decide, c7_accepted_copy false 0x13 envC7 (by decide) rfl (by decide)⟩

/-- Claim C10: with the receive-checksum capability set, a masked hardware
length below 4 wraps in the uint32_t subtraction of the 4-byte trailer:
the validated length becomes the masked length plus 2^32 - 4, exceeds
the MCLBYTES - ETHER_ALIGN ceiling, and the frame takes the rejection
path (error counter, ring advance, status re-read); a masked hardware
length of exactly 4 validates to 0 and, with no error bits and a
successful allocation, the iteration accepts and delivers a zero-length
frame with no copied words. -/
theorem c10_checksum_trailer_wrap (status : Nat) (envA envB : IterEnv)
    (hA : envA.rplr &&& RPLR_LENGTH_MASK < 4)
    (hB4 : envB.rplr &&& RPLR_LENGTH_MASK = 4)
    (hBerr : (0x101 <<< ((status &&& RSR_RECV_FIRST_MASK) &&& 7)) &&& envB.rbad = 0)
    (hBalloc : envB.allocOk = true) :
    (lre_validated_length true envA.rplr
        = (envA.rplr &&& RPLR_LENGTH_MASK) + 4294967292 ∧
     MCLBYTES - ETHER_ALIGN < lre_validated_length true envA.rplr ∧
     lre_rx_iter true status envA =
       (.rejected envA.nextStatus,
        [Ev.incCounter .ierrors 1,
         Ev.setReg RSR_OFFSET ((status &&& RSR_RECV_FIRST_MASK) + 1),
         Ev.readReg RSR_OFFSET envA.nextStatus])) ∧
    (lre_validated_length true envB.rplr = 0 ∧
     lre_rx_iter true status envB =
       (.accepted ⟨ETHER_ALIGN, [], 0⟩ envB.nextStatus,
        [Ev.allocBuf true,
         Ev.setReg RSR_OFFSET ((status &&& RSR_RECV_FIRST_MASK) + 1),
         Ev.incCounter .ipackets 1, Ev.deliver ⟨ETHER_ALIGN, [], 0⟩,
         Ev.readReg RSR_OFFSET envB.nextStatus])) := by
  have hvalA : lre_validated_length true envA.rplr
      = (envA.rplr &&& RPLR_LENGTH_MASK) + 4294967292 := by
    unfold lre_validated_length u32
    dsimp only
    simp only [if_true]
    omega
  have hgtA : MCLBYTES - ETHER_ALIGN < lre_validated_length true envA.rplr := by
    rw [hvalA]
    unfold MCLBYTES ETHER_ALIGN
    omega
  have hrejA : lre_reject (lre_validated_length true envA.rplr) envA.rbad
      (status &&& RSR_RECV_FIRST_MASK) = true := by
    unfold lre_reject
    simp only [Bool.or_eq_true, decide_eq_true_eq]
    left
    exact hgtA
  have hiterA : lre_rx_iter true status envA =
      (.rejected envA.nextStatus,
        [Ev.incCounter .ierrors 1,
         Ev.setReg RSR_OFFSET ((status &&& RSR_RECV_FIRST_MASK) + 1),
         Ev.readReg RSR_OFFSET envA.nextStatus]) := by
    simp [lre_rx_iter, hrejA]
  have hvalB : lre_validated_length true envB.rplr = 0 := by
    unfold lre_validated_length u32
    dsimp only
    rw [hB4]
    norm_num
  have hrejB : lre_reject (lre_validated_length true envB.rplr) envB.rbad
      (status &&& RSR_RECV_FIRST_MASK) = false := by
    unfold lre_reject
    rw [hvalB]
    simp [hBerr, MCLBYTES, ETHER_ALIGN]
  have hfrB : lre_rx_frame true status envB = ⟨ETHER_ALIGN, [], 0⟩ := by
    unfold lre_rx_frame
    dsimp only
    rw [hvalB]
    have h1 : u32 (0 + 4294967295) = 4294967295 := by
      unfold u32
      norm_num
    rw [h1]
    have h2 : (4294967295 ||| 7 : Nat) = 4294967295 := by
      have h3 := or_seven 4294967295
      omega
    rw [h2]
    have h4 : u32 (4294967295 + 1) = 0 := by
      unfold u32
      norm_num
    rw [h4]
    norm_num
  have hiterB : lre_rx_iter true status envB =
      (.accepted ⟨ETHER_ALIGN, [], 0⟩ envB.nextStatus,
        [Ev.allocBuf true,
         Ev.setReg RSR_OFFSET ((status &&& RSR_RECV_FIRST_MASK) + 1),
         Ev.incCounter .ipackets 1, Ev.deliver ⟨ETHER_ALIGN, [], 0⟩,
         Ev.readReg RSR_OFFSET envB.nextStatus]) := by
    have h5 : lre_rx_iter true status envB =
        (.accepted (lre_rx_frame true status envB) envB.nextStatus,
          [Ev.allocBuf true,
           Ev.setReg RSR_OFFSET ((status &&& RSR_RECV_FIRST_MASK) + 1),
           Ev.incCounter .ipackets 1, Ev.deliver (lre_rx_frame true status envB),
           Ev.readReg RSR_OFFSET envB.nextStatus]) := by
      simp [lre_rx_iter, hrejB, hBalloc]
    rw [h5, hfrB]
  exact ⟨⟨hvalA, hgtA, hiterA⟩, ⟨hvalB, hiterB⟩⟩

/-- A concrete iteration environment with masked length 2, exercising the
wrapping branch of c10_checksum_trailer_wrap. -/
def envC10A : IterEnv := ⟨0, 2, fun _ => 0, true, 0⟩

/-- A concrete iteration environment with masked length 4, exercising the
zero-length branch of c10_checksum_trailer_wrap. -/
def envC10B : IterEnv := ⟨0, 4, fun _ => 0, true, 0⟩

/-- Witness for claim C10 at slot 0 with masked lengths 2 and 4. -/
theorem c10_checksum_trailer_wrap_witness :
    (envC10A.rplr &&& RPLR_LENGTH_MASK < 4) ∧
    (envC10B.rplr &&& RPLR_LENGTH_MASK = 4) ∧
    ((0x101 <<< ((0x10 &&& RSR_RECV_FIRST_MASK) &&& 7)) &&& envC10B.rbad = 0) ∧
    envC10B.allocOk = true ∧
    ((lre_validated_length true envC10A.rplr
        = (envC10A.rplr &&& RPLR_LENGTH_MASK) + 4294967292 ∧
      MCLBYTES - ETHER_ALIGN < lre_validated_length true envC10A.rplr ∧
      lre_rx_iter true 0x10 envC10A =
        (.rejected envC10A.nextStatus,
         [Ev.incCounter .ierrors 1,
          Ev.setReg RSR_OFFSET ((0x10 &&& RSR_RECV_FIRST_MASK) + 1),
          Ev.readReg RSR_OFFSET envC10A.nextStatus])) ∧
     (lre_validated_length true envC10B.rplr = 0 ∧
      lre_rx_iter true 0x10 envC10B =
        (.accepted ⟨ETHER_ALIGN, [], 0⟩ envC10B.nextStatus,
         [Ev.allocBuf true,
          Ev.setReg RSR_OFFSET ((0x10 &&& RSR_RECV_FIRST_MASK) + 1),
          Ev.incCounter .ipackets 1, Ev.deliver ⟨ETHER_ALIGN, [], 0⟩,
          Ev.readReg RSR_OFFSET envC10B.nextStatus]))) :=
  ⟨by decide, by decide, by decide, rfl,
   c10_checksum_trailer_wrap 0x10 envC10A envC10B (by decide) (by decide)
     (by decide) rfl⟩

end Lre